import Mathlib

/-!
Verification of the RummyScore round-ledger and rotation engine.

The definitions below are a shallow embedding of `GameService`
(src/app/services/game.service.ts) and the data model
(src/app/models/game.model.ts).  Scores are JavaScript numbers used as
integers, so they are modelled by `Int`; array indices and column orders
are modelled by `Nat`.  The Angular signal `playersEligibleForRejoin`
(transient, not part of the persisted `GameState`) is carried alongside
the game state in `ServiceState`.  Nondeterministic inputs of the source
(`Date.now()` timestamps, `generateId()` fresh ids) are passed as explicit
parameters.
-/

namespace RummyScore

/-- Embeds interface `RoundScore`: one player's score in a round. -/
structure RoundScore where
  playerId : String
  score : Int
  deriving DecidableEq, Repr

/-- Embeds interface `Round`. -/
structure Round where
  id : Nat
  scores : List RoundScore
  winnerId : Option String
  timestamp : Nat
  deriving DecidableEq, Repr

/-- Embeds interface `Player`. -/
structure Player where
  id : String
  name : String
  isOut : Bool
  columnOrder : Nat
  originalColumnOrder : Option Nat
  rejoinCount : Nat
  deriving DecidableEq, Repr

/-- Embeds interface `GameSettings`. -/
structure GameSettings where
  maxPoints : Int
  dropPoints : Int
  deriving DecidableEq, Repr

/-- One saved `{ roundId, score }` entry of a `RemovedPlayer` tombstone. -/
structure RemovedScore where
  roundId : Nat
  score : Int
  deriving DecidableEq, Repr

/-- Embeds interface `RemovedPlayer`: tombstone kept on permanent removal. -/
structure RemovedPlayer where
  player : Player
  scores : List RemovedScore
  deriving DecidableEq, Repr

/-- Embeds interface `GameState` (the persisted snapshot). -/
structure GameState where
  settings : GameSettings
  players : List Player
  rounds : List Round
  currentOpenCardPlayerIndex : Nat
  isGameStarted : Bool
  isGameOver : Bool
  gameWinnerId : Option String
  removedPlayers : List RemovedPlayer
  deriving DecidableEq, Repr

/-- The full service state: persisted snapshot plus the transient
`playersEligibleForRejoin` signal. -/
structure ServiceState where
  game : GameState
  eligible : List String
  deriving DecidableEq, Repr

/-- Embeds JavaScript `String.prototype.toLowerCase()` for the ASCII
names the app stores: character-wise lower-casing. -/
def jsToLower (s : String) : String := ⟨s.data.map Char.toLower⟩

/-- Embeds JavaScript `String.prototype.trim()`: drops whitespace from
both ends. -/
def jsTrim (s : String) : String :=
  ⟨((s.data.dropWhile Char.isWhitespace).reverse.dropWhile Char.isWhitespace).reverse⟩

/-- Embeds `scores.find(s => s.playerId === playerId)`. -/
def findScore (pid : String) : List RoundScore → Option RoundScore
  | [] => none
  | s :: rest => if s.playerId = pid then some s else findScore pid rest

/-- Embeds `round.scores.find(s => s.playerId === pid)?.score || 0`
(the first matching entry's score, `0` when absent; note that a stored
score of `0` is falsy in JavaScript and also yields `0`). -/
def scoreOfScores (pid : String) (scores : List RoundScore) : Int :=
  match findScore pid scores with
  | some s => s.score
  | none => 0

/-- Per-round contribution of a player, as read by `calculatePlayerTotal`. -/
def scoreOf (pid : String) (r : Round) : Int :=
  scoreOfScores pid r.scores

/-- The `reduce` in `calculatePlayerTotal`, over an explicit round list. -/
def totalOnRounds (rounds : List Round) (pid : String) : Int :=
  rounds.foldl (fun total r => total + scoreOf pid r) 0

/-- Embeds `GameService.calculatePlayerTotal`. -/
def calculatePlayerTotal (s : GameState) (pid : String) : Int :=
  totalOnRounds s.rounds pid

/-- Embeds `scores.find(s => s.score === 0)`. -/
def findZeroScore : List RoundScore → Option RoundScore
  | [] => none
  | s :: rest => if s.score = 0 then some s else findZeroScore rest

/-- Embeds `...find(s => s.score === 0)?.playerId || null`: a found entry
whose `playerId` is the empty string is falsy in JavaScript and also
yields `null`. -/
def jsWinner : Option RoundScore → Option String
  | some s => if s.playerId = "" then none else some s.playerId
  | none => none

/-- Embeds `players.find(p => p.id === playerId)`. -/
def findPlayer (pid : String) : List Player → Option Player
  | [] => none
  | p :: rest => if p.id = pid then some p else findPlayer pid rest

/-- Stable insertion of a player into a list sorted by `columnOrder`
(placed before the first element with an order that is not smaller). -/
def insertByOrder (p : Player) : List Player → List Player
  | [] => [p]
  | q :: qs =>
    if q.columnOrder < p.columnOrder then q :: insertByOrder p qs
    else p :: q :: qs

/-- Embeds the stable `Array.prototype.sort((a, b) => a.columnOrder -
b.columnOrder)` used throughout the service. -/
def sortPlayers : List Player → List Player
  | [] => []
  | p :: ps => insertByOrder p (sortPlayers ps)

/-- Embeds the computed signal `activePlayers`: players with `isOut`
false, sorted by `columnOrder`. -/
def activePlayers (s : GameState) : List Player :=
  sortPlayers (s.players.filter (fun p => !p.isOut))

/-- Embeds `GameService.getHighestActiveScore` (the `forEach` loop as a
fold; `exclude = none` models calling it without `excludePlayerId`). -/
def getHighestActiveScore (s : GameState) (exclude : Option String) : Int :=
  s.players.foldl
    (fun highest p =>
      if p.isOut = false ∧ some p.id ≠ exclude then
        if calculatePlayerTotal s p.id > highest then calculatePlayerTotal s p.id
        else highest
      else highest)
    0

/-- Embeds the computed signal `currentOpenCardPlayer`
(`active[index] || active[0]`). -/
def currentOpenCardPlayer (s : GameState) : Option Player :=
  let active := activePlayers s
  if active.length = 0 then none
  else
    match active.get? s.currentOpenCardPlayerIndex with
    | some p => some p
    | none => active.get? 0

/-- Embeds the computed signal `currentDealer`. -/
def currentDealer (s : GameState) : Option Player :=
  let active := activePlayers s
  if active.length < 2 then none
  else
    match active.get? s.currentOpenCardPlayerIndex with
    | none => none
    | some _ =>
      let dealerIndex :=
        if s.currentOpenCardPlayerIndex = 0 then active.length - 1
        else s.currentOpenCardPlayerIndex - 1
      active.get? dealerIndex

/-- Embeds `GameService.checkGameOver`. -/
def checkGameOver (s : GameState) : GameState :=
  match activePlayers s with
  | [p] => { s with isGameOver := true, gameWinnerId := some p.id }
  | [] => { s with isGameOver := true }
  | _ => s

/-- Embeds the `players.map` of `GameService.checkPlayersOut` together
with the `playersWhoWentOut` accumulator, preserving the iteration
order of both outputs. -/
def checkPlayersOutAux (s : GameState) : List Player → List Player × List String
  | [] => ([], [])
  | p :: rest =>
    let pr := checkPlayersOutAux s rest
    if p.isOut then (p :: pr.1, pr.2)
    else if calculatePlayerTotal s p.id > s.settings.maxPoints then
      ({ p with isOut := true, originalColumnOrder := some p.columnOrder } :: pr.1,
       p.id :: pr.2)
    else (p :: pr.1, pr.2)

/-- Embeds `GameService.checkPlayersOut`: returns the updated state and
the ids of the players who just went out.  The state is only updated
(and the game-over check run) when somebody went out. -/
def checkPlayersOut (s : GameState) : GameState × List String :=
  let pr := checkPlayersOutAux s s.players
  if pr.2.isEmpty then (s, pr.2)
  else (checkGameOver { s with players := pr.1 }, pr.2)

/-- Embeds `GameService.advanceOpenCard`. -/
def advanceOpenCard (s : GameState) : GameState :=
  let active := activePlayers s
  if active.length < 2 then s
  else { s with currentOpenCardPlayerIndex := (s.currentOpenCardPlayerIndex + 1) % active.length }

/-- Embeds `GameService.addRound` (`t` stands for the `Date.now()`
timestamp).  Rejoin eligibility is cleared first and then repopulated
with exactly the players this submission eliminated. -/
def addRound (st : ServiceState) (scores : List RoundScore) (t : Nat) : ServiceState :=
  let s := st.game
  let winnerId := jsWinner (findZeroScore scores)
  let newRound : Round :=
    { id := s.rounds.length + 1, scores := scores, winnerId := winnerId, timestamp := t }
  let s1 := { s with rounds := s.rounds ++ [newRound] }
  let res := checkPlayersOut s1
  let elig := if res.2.isEmpty then ([] : List String) else res.2
  { game := advanceOpenCard res.1, eligible := elig }

/-- Embeds `GameService.updateScore`.  The rejoin-eligibility signal is
not touched by this operation. -/
def updateScore (st : ServiceState) (roundId : Nat) (pid : String) (newScore : Int) :
    ServiceState :=
  let s := st.game
  let rounds' := s.rounds.map (fun r =>
    if r.id = roundId then
      let scores' := r.scores.map (fun sc =>
        if sc.playerId = pid then { sc with score := newScore } else sc)
      { r with scores := scores', winnerId := jsWinner (findZeroScore scores') }
    else r)
  { st with game := (checkPlayersOut { s with rounds := rounds' }).1 }

/-- Applies `f` to the last element only; embeds the recurring source
pattern `rounds.map((round, index) => index === rounds.length - 1 ?
f(round) : round)`. -/
def mapLast (f : Round → Round) : List Round → List Round
  | [] => []
  | [r] => [f r]
  | r :: r' :: rest => r :: mapLast f (r' :: rest)

/-- Embeds `GameService.rejoinPlayer`. -/
def rejoinPlayer (st : ServiceState) (pid : String) : ServiceState :=
  let s := st.game
  match findPlayer pid s.players with
  | none => st
  | some player =>
    if player.isOut ∧ pid ∈ st.eligible then
      let currentTotal := calculatePlayerTotal s pid
      let highestActive := getHighestActiveScore s none
      let targetTotal := highestActive + 1
      let lastRoundScore :=
        match s.rounds.getLast? with
        | some lr => scoreOf pid lr
        | none => 0
      let newLastRoundScore := targetTotal - currentTotal + lastRoundScore
      let originalOrder := player.originalColumnOrder.getD player.columnOrder
      let updatedPlayers := s.players.map (fun p =>
        if p.id = pid then
          { p with isOut := false, columnOrder := originalOrder,
                   originalColumnOrder := none, rejoinCount := p.rejoinCount + 1 }
        else if p.isOut = false ∧ p.columnOrder ≥ originalOrder then
          { p with columnOrder := p.columnOrder + 1 }
        else p)
      let updatedRounds := mapLast (fun r =>
        { r with scores := r.scores.map (fun sc =>
            if sc.playerId = pid then { sc with score := newLastRoundScore } else sc) })
        s.rounds
      let activeAfter := sortPlayers (updatedPlayers.filter (fun p => !p.isOut))
      let newIdx := (activeAfter.findIdx? (fun p => p.id = pid)).getD 0
      { game := { s with players := updatedPlayers, rounds := updatedRounds,
                         currentOpenCardPlayerIndex := newIdx,
                         isGameOver := false, gameWinnerId := none },
        eligible := st.eligible.filter (fun x => x ≠ pid) }
    else st

/-- Embeds the compaction loop `let order = 0; players.forEach(p => { if
(!p.isOut) p.columnOrder = order++ })`. -/
def assignOrders (n : Nat) : List Player → List Player
  | [] => []
  | p :: ps =>
    if p.isOut then p :: assignOrders n ps
    else { p with columnOrder := n } :: assignOrders (n + 1) ps

/-- Embeds `GameService.recalculatePlayerStatuses`. -/
def recalculatePlayerStatuses (s : GameState) : GameState :=
  let updated := s.players.map (fun p =>
    let shouldBeOut : Bool := decide (calculatePlayerTotal s p.id > s.settings.maxPoints)
    if p.isOut ≠ shouldBeOut then { p with isOut := shouldBeOut } else p)
  let hasChanges := s.players.any (fun p =>
    p.isOut ≠ decide (calculatePlayerTotal s p.id > s.settings.maxPoints))
  if hasChanges then checkGameOver { s with players := assignOrders 0 updated }
  else s

/-- Renumbering with `map((round, index) => ({ ...round, id: index + 1 }))`,
written with an explicit counter starting at `n`. -/
def renumberFrom (n : Nat) : List Round → List Round
  | [] => []
  | r :: rest => { r with id := n } :: renumberFrom (n + 1) rest

/-- Embeds `GameService.deleteRound`. -/
def deleteRound (st : ServiceState) (roundId : Nat) : ServiceState :=
  let s := st.game
  let filtered := s.rounds.filter (fun r => r.id ≠ roundId)
  let s1 := { s with rounds := renumberFrom 1 filtered }
  { game := recalculatePlayerStatuses s1, eligible := [] }

/-- Embeds the `playerScores` collection loop of `GameService.removePlayer`. -/
def collectScores (pid : String) : List Round → List RemovedScore
  | [] => []
  | r :: rest =>
    match findScore pid r.scores with
    | some sc => { roundId := r.id, score := sc.score } :: collectScores pid rest
    | none => collectScores pid rest

/-- Embeds `removedPlayer.scores.find(s => s.roundId === roundId)`. -/
def findSaved (rid : Nat) : List RemovedScore → Option RemovedScore
  | [] => none
  | e :: rest => if e.roundId = rid then some e else findSaved rid rest

/-- Embeds `GameService.removePlayer`. -/
def removePlayer (st : ServiceState) (pid : String) : ServiceState :=
  let s := st.game
  match findPlayer pid s.players with
  | none => st
  | some playerToRemove =>
    let record : RemovedPlayer :=
      { player := playerToRemove, scores := collectScores pid s.rounds }
    let updatedRemoved :=
      (s.removedPlayers.filter (fun rp =>
        jsToLower rp.player.name ≠ jsToLower playerToRemove.name)) ++ [record]
    let updatedPlayers := assignOrders 0 (s.players.filter (fun p => p.id ≠ pid))
    let updatedRounds := s.rounds.map (fun r =>
      { r with scores := r.scores.filter (fun sc => sc.playerId ≠ pid) })
    let s1 := { s with players := updatedPlayers, rounds := updatedRounds,
                       removedPlayers := updatedRemoved }
    { game := checkGameOver s1, eligible := st.eligible.filter (fun x => x ≠ pid) }

/-- Embeds `GameService.isPlayerNameTaken`. -/
def isPlayerNameTaken (s : GameState) (name : String) : Bool :=
  let normalized := jsToLower (jsTrim name)
  s.players.any (fun p => jsToLower p.name = normalized)

/-- Embeds `GameService.findRemovedPlayer`. -/
def findRemovedPlayer (s : GameState) (name : String) : Option RemovedPlayer :=
  let normalized := jsToLower (jsTrim name)
  s.removedPlayers.find? (fun rp => jsToLower rp.player.name = normalized)

/-- Embeds `GameService.addPlayer` (`freshId` stands for the
`generateId()` result used in the fresh-player branch).  Returns the
source's boolean result together with the next state. -/
def addPlayer (st : ServiceState) (freshId : String) (name : String) :
    Bool × ServiceState :=
  let s := st.game
  let trimmedName := jsTrim name
  if isPlayerNameTaken s trimmedName then (false, st)
  else
    match findRemovedPlayer s trimmedName with
    | some removedPlayer =>
      let restored : Player :=
        { removedPlayer.player with
            isOut := false,
            columnOrder := (s.players.filter (fun p => !p.isOut)).length,
            rejoinCount := removedPlayer.player.rejoinCount }
      let updatedRounds := s.rounds.map (fun r =>
        match findSaved r.id removedPlayer.scores with
        | some saved =>
          { r with scores := r.scores ++ [{ playerId := restored.id, score := saved.score }] }
        | none => r)
      let updatedRemoved := s.removedPlayers.filter (fun rp =>
        jsToLower rp.player.name ≠ jsToLower trimmedName)
      (true, { st with game := { s with players := s.players ++ [restored],
                                        rounds := updatedRounds,
                                        removedPlayers := updatedRemoved } })
    | none =>
      let newPlayer : Player :=
        { id := freshId, name := trimmedName, isOut := false,
          columnOrder := (s.players.filter (fun p => !p.isOut)).length,
          originalColumnOrder := none, rejoinCount := 0 }
      (true, { st with game := { s with players := s.players ++ [newPlayer] } })

/-- Embeds `playerIds.indexOf(player.id)`, with `none` for the `-1` case. -/
def indexOfId (pid : String) : List String → Option Nat
  | [] => none
  | x :: xs => if x = pid then some 0 else (indexOfId pid xs).map (· + 1)

/-- Embeds `GameService.reorderPlayers`. -/
def reorderPlayers (st : ServiceState) (playerIds : List String) : ServiceState :=
  let s := st.game
  let updatedPlayers := s.players.map (fun p =>
    match indexOfId p.id playerIds with
    | some n => { p with columnOrder := n }
    | none => p)
  { st with game := { s with players := updatedPlayers } }

/-- The ids of the currently active players, in stored order. -/
def activeIds (s : GameState) : List String :=
  (s.players.filter (fun p => !p.isOut)).map (·.id)

/-- The `columnOrder` values of the currently active players, in stored
order. -/
def activeOrders (s : GameState) : List Nat :=
  (s.players.filter (fun p => !p.isOut)).map (·.columnOrder)

/-- The §3 seating invariant: active players' `columnOrder` values form
a contiguous 0-based permutation. -/
def denseActiveOrders (s : GameState) : Prop :=
  List.Perm (activeOrders s) (List.range (activeOrders s).length)

instance (s : GameState) : Decidable (denseActiveOrders s) := by
  unfold denseActiveOrders
  infer_instance

/-- Convenience constructor for concrete player records. -/
def mkPlayer (i n : String) (o : Nat) (out : Bool := false)
    (orig : Option Nat := none) (rc : Nat := 0) : Player :=
  { id := i, name := n, isOut := out, columnOrder := o,
    originalColumnOrder := orig, rejoinCount := rc }

/-- Three active players, no rounds: the state right after setup. -/
def exG0 : GameState :=
  { settings := { maxPoints := 201, dropPoints := 20 },
    players := [mkPlayer "a" "A" 0, mkPlayer "b" "B" 1, mkPlayer "c" "C" 2],
    rounds := [], currentOpenCardPlayerIndex := 0,
    isGameStarted := true, isGameOver := false, gameWinnerId := none,
    removedPlayers := [] }

def exSt0 : ServiceState := { game := exG0, eligible := [] }

/-- `exSt0` after a round whose 250 points eliminate player `b`. -/
def exSt1 : ServiceState := addRound exSt0 [⟨"a", 0⟩, ⟨"b", 250⟩, ⟨"c", 10⟩] 0

/-- The eliminated player `b` as it is stored inside `exSt1`. -/
def exPlayerBOut : Player := mkPlayer "b" "B" 1 true (some 1) 0

/-- Four active seats A, B, C, D with the open card pointed at C. -/
def exGDealer : GameState :=
  { settings := { maxPoints := 201, dropPoints := 20 },
    players := [mkPlayer "a" "A" 0, mkPlayer "b" "B" 1, mkPlayer "c" "C" 2,
                mkPlayer "d" "D" 3],
    rounds := [], currentOpenCardPlayerIndex := 2,
    isGameStarted := true, isGameOver := false, gameWinnerId := none,
    removedPlayers := [] }

/-- Two active players with a stale rotation index (for instance after a
`removePlayer`, which never adjusts the index). -/
def exGStale : GameState :=
  { settings := { maxPoints := 201, dropPoints := 20 },
    players := [mkPlayer "a" "A" 0, mkPlayer "b" "B" 1],
    rounds := [], currentOpenCardPlayerIndex := 5,
    isGameStarted := true, isGameOver := false, gameWinnerId := none,
    removedPlayers := [] }

/-- Player `b` is out with 250 points from round 1 (ceiling 201). -/
def exGEdit : GameState :=
  { settings := { maxPoints := 201, dropPoints := 20 },
    players := [mkPlayer "a" "A" 0, mkPlayer "b" "B" 1 true (some 1)],
    rounds := [{ id := 1, scores := [⟨"a", 10⟩, ⟨"b", 250⟩], winnerId := none,
                 timestamp := 0 }],
    currentOpenCardPlayerIndex := 0, isGameStarted := true, isGameOver := false,
    gameWinnerId := none, removedPlayers := [] }

def exStEdit : ServiceState := { game := exGEdit, eligible := [] }

/-- Same ledger as `exGEdit` but the game is already over (winner `a`). -/
def exStOver : ServiceState :=
  { game := { exGEdit with isGameOver := true, gameWinnerId := some "a" },
    eligible := [] }

/-- Two players with two recorded rounds, ready for removal of `b`
(named `Bee`, rejoin count 3). -/
def exStRemove : ServiceState :=
  { game :=
      { settings := { maxPoints := 201, dropPoints := 20 },
        players := [mkPlayer "a" "A" 0, mkPlayer "b" "Bee" 1 false none 3],
        rounds := [{ id := 1, scores := [⟨"a", 10⟩, ⟨"b", 25⟩], winnerId := none,
                     timestamp := 0 },
                   { id := 2, scores := [⟨"a", 0⟩, ⟨"b", 7⟩], winnerId := some "a",
                     timestamp := 0 }],
        currentOpenCardPlayerIndex := 0, isGameStarted := true, isGameOver := false,
        gameWinnerId := none, removedPlayers := [] },
    eligible := [] }

/-- A tombstone for `Big` whose restored history totals 500, far above
the ceiling of 201. -/
def exTombRecord : RemovedPlayer :=
  { player := mkPlayer "g" "Big" 1 false none 2,
    scores := [{ roundId := 1, score := 500 }] }

/-- One active player plus the `Big` tombstone. -/
def exStTomb : ServiceState :=
  { game :=
      { settings := { maxPoints := 201, dropPoints := 20 },
        players := [mkPlayer "a" "A" 0],
        rounds := [{ id := 1, scores := [⟨"a", 10⟩], winnerId := none,
                     timestamp := 0 }],
        currentOpenCardPlayerIndex := 0, isGameStarted := true, isGameOver := false,
        gameWinnerId := none,
        removedPlayers := [exTombRecord] },
    eligible := [] }

/-! ### Basic lemmas about the aggregation of totals -/

theorem foldl_add_scoreOf (pid : String) (l : List Round) (init : Int) :
    l.foldl (fun t r => t + scoreOf pid r) init = init + (l.map (scoreOf pid)).sum := by
  induction l generalizing init with
  | nil => simp
  | cons r rest ih => simp [ih, add_assoc]

theorem totalOnRounds_eq_sum (l : List Round) (pid : String) :
    totalOnRounds l pid = (l.map (scoreOf pid)).sum := by
  simpa using foldl_add_scoreOf pid l 0

theorem totalOnRounds_append (xs ys : List Round) (pid : String) :
    totalOnRounds (xs ++ ys) pid = totalOnRounds xs pid + totalOnRounds ys pid := by
  simp [totalOnRounds_eq_sum]

theorem totalOnRounds_concat (xs : List Round) (r : Round) (pid : String) :
    totalOnRounds (xs ++ [r]) pid = totalOnRounds xs pid + scoreOf pid r := by
  simp [totalOnRounds_append, totalOnRounds_eq_sum]

/-- Claim C1: `calculatePlayerTotal` (the running-total accumulator of the
source) equals, in every state — hence after every sequence of round
submissions — the sum over all recorded rounds of the player's entry in
that round, a round without an entry for the player contributing `0`. -/
theorem claim1_total_is_sum_of_round_scores (s : GameState) (pid : String) :
    calculatePlayerTotal s pid = (s.rounds.map (scoreOf pid)).sum :=
  totalOnRounds_eq_sum s.rounds pid

/-! ### Counterexamples established by direct evaluation -/

/-- Claim C2 counterexample: submitting two scores, neither of them zero,
is not rejected — `addRound` records the round anyway (the ledger grows
from zero to one round, with no winner derived). -/
theorem claim2_cex_addRound_accepts_no_zero :
    findZeroScore [⟨"a", 5⟩, ⟨"b", 7⟩] = none ∧
    exSt0.game.rounds.length = 0 ∧
    (addRound exSt0 [⟨"a", 5⟩, ⟨"b", 7⟩] 0).game.rounds.length = 1 := by
  decide

/-- Claim C3 counterexample: player `b` is out with 250 points under a
ceiling of 201; editing that score down to 5 leaves `isOut = true`
although the recomputed total 5 is far below the ceiling — `updateScore`
never resurrects. -/
theorem claim3_cex_updateScore_does_not_resurrect :
    exStEdit.game.settings.maxPoints = 201 ∧
    (findPlayer "b" (updateScore exStEdit 1 "b" 5).game.players).map (·.isOut) =
      some true ∧
    calculatePlayerTotal (updateScore exStEdit 1 "b" 5).game "b" = 5 := by
  decide

/-- Claim C4 counterexample: from a game-over state with one active and
one eliminated player, deleting the only round resurrects the eliminated
player (two active players remain) yet `isGameOver` stays `true` —
`deleteRound` never clears the game-over flag. -/
theorem claim4_cex_deleteRound_keeps_gameOver :
    exStOver.game.isGameOver = true ∧
    ((deleteRound exStOver 1).game.players.filter (fun p => !p.isOut)).length = 2 ∧
    (deleteRound exStOver 1).game.isGameOver = true := by
  decide

/-- Claim C6 counterexample: with two active players but a stale rotation
index (5), the open-card player falls back to the first active player
while the dealer is `none` — so the dealer is neither the predecessor of
the open-card player nor is the active count below two. -/
theorem claim6_cex_stale_index_dealer_none :
    (activePlayers exGStale).length = 2 ∧
    (currentOpenCardPlayer exGStale).map (·.id) = some "a" ∧
    currentDealer exGStale = none := by
  decide

/-! ### Field-preservation lemmas for the state-transition helpers -/

theorem checkGameOver_rounds (s : GameState) : (checkGameOver s).rounds = s.rounds := by
  unfold checkGameOver
  cases activePlayers s with
  | nil => rfl
  | cons p ps => cases ps with
    | nil => rfl
    | cons q qs => rfl

theorem checkGameOver_players (s : GameState) : (checkGameOver s).players = s.players := by
  unfold checkGameOver
  cases activePlayers s with
  | nil => rfl
  | cons p ps => cases ps with
    | nil => rfl
    | cons q qs => rfl

theorem checkGameOver_settings (s : GameState) : (checkGameOver s).settings = s.settings := by
  unfold checkGameOver
  cases activePlayers s with
  | nil => rfl
  | cons p ps => cases ps with
    | nil => rfl
    | cons q qs => rfl

theorem checkGameOver_isGameOver_mono (s : GameState) (h : s.isGameOver = true) :
    (checkGameOver s).isGameOver = true := by
  unfold checkGameOver
  cases activePlayers s with
  | nil => rfl
  | cons p ps => cases ps with
    | nil => rfl
    | cons q qs => exact h

theorem checkPlayersOut_fst_rounds (s : GameState) :
    (checkPlayersOut s).1.rounds = s.rounds := by
  simp only [checkPlayersOut]
  split
  · rfl
  · exact checkGameOver_rounds _

theorem checkPlayersOut_fst_settings (s : GameState) :
    (checkPlayersOut s).1.settings = s.settings := by
  simp only [checkPlayersOut]
  split
  · rfl
  · exact checkGameOver_settings _

theorem advanceOpenCard_rounds (s : GameState) :
    (advanceOpenCard s).rounds = s.rounds := by
  simp only [advanceOpenCard]
  split <;> rfl

theorem advanceOpenCard_players (s : GameState) :
    (advanceOpenCard s).players = s.players := by
  simp only [advanceOpenCard]
  split <;> rfl

/-! ### Claim C2 (amended): addRound performs no validation at all -/

/-- Claim C2 amended: `addRound` never rejects a submission.  For every
state and every submitted score list — in particular lists with zero or
with several zero-score entries — exactly one new round is appended,
whose `winnerId` is the first zero-score entry's player (none when there
is no such entry); the exactly-one-winner rule is enforced by the UI
callers, not by the ledger. -/
theorem claim2_addRound_always_records (st : ServiceState) (scores : List RoundScore)
    (t : Nat) :
    (addRound st scores t).game.rounds.length = st.game.rounds.length + 1 ∧
    (addRound st scores t).game.rounds.getLast? =
      some { id := st.game.rounds.length + 1, scores := scores,
             winnerId := jsWinner (findZeroScore scores), timestamp := t } := by
  have hrounds : (addRound st scores t).game.rounds =
      st.game.rounds ++
        [{ id := st.game.rounds.length + 1, scores := scores,
           winnerId := jsWinner (findZeroScore scores), timestamp := t }] := by
    simp only [addRound]
    rw [advanceOpenCard_rounds, checkPlayersOut_fst_rounds]
  refine ⟨?_, ?_⟩
  · rw [hrounds]
    simp
  · rw [hrounds]
    simp

/-! ### Claim C3 (amended): score edits recompute one-directionally -/

/-- Auxiliary relation: the players list is transformed positionally,
ids are preserved, and `isOut` can only move from `false` to `true`. -/
theorem checkPlayersOutAux_fst_forall2 (s : GameState) (l : List Player) :
    List.Forall₂ (fun p q => p.id = q.id ∧ (p.isOut = true → q.isOut = true)) l
      (checkPlayersOutAux s l).1 := by
  induction l with
  | nil => simp [checkPlayersOutAux]
  | cons p rest ih =>
    simp only [checkPlayersOutAux]
    split
    · exact List.Forall₂.cons ⟨rfl, fun hh => hh⟩ ih
    · split
      · exact List.Forall₂.cons ⟨rfl, fun _ => rfl⟩ ih
      · exact List.Forall₂.cons ⟨rfl, fun hh => hh⟩ ih

theorem checkPlayersOut_fst_players_forall2 (s : GameState) :
    List.Forall₂ (fun p q => p.id = q.id ∧ (p.isOut = true → q.isOut = true))
      s.players (checkPlayersOut s).1.players := by
  simp only [checkPlayersOut]
  split
  · exact (List.forall₂_same).2 (fun p _ => ⟨rfl, fun hh => hh⟩)
  · show List.Forall₂ _ s.players (checkGameOver _).players
    rw [checkGameOver_players]
    exact checkPlayersOutAux_fst_forall2 s s.players

/-- Claim C3 amended: `updateScore` replaces the one score, recomputes
that round's `winnerId`, and then runs `checkPlayersOut`, which is
one-directional: ids and positions are preserved and `isOut` can only
turn from `false` to `true` (when the recomputed total exceeds the
ceiling).  It never resurrects an eliminated player — reducing a past
score below the ceiling leaves `isOut = true`; the bidirectional
recomputation pass runs only inside `deleteRound`. -/
theorem claim3_updateScore_never_resurrects (st : ServiceState) (rid : Nat)
    (pid : String) (ns : Int) :
    (updateScore st rid pid ns).game.rounds =
      st.game.rounds.map (fun r =>
        if r.id = rid then
          { r with
            scores := r.scores.map (fun sc =>
              if sc.playerId = pid then { sc with score := ns } else sc),
            winnerId := jsWinner (findZeroScore (r.scores.map (fun sc =>
              if sc.playerId = pid then { sc with score := ns } else sc))) }
        else r) ∧
    List.Forall₂ (fun p q => p.id = q.id ∧ (p.isOut = true → q.isOut = true))
      st.game.players (updateScore st rid pid ns).game.players ∧
    (updateScore st rid pid ns).eligible = st.eligible := by
  refine ⟨?_, ?_, rfl⟩
  · show (checkPlayersOut _).1.rounds = _
    rw [checkPlayersOut_fst_rounds]
  · exact checkPlayersOut_fst_players_forall2
      { st.game with rounds := st.game.rounds.map (fun r =>
          if r.id = rid then
            { r with
              scores := r.scores.map (fun sc =>
                if sc.playerId = pid then { sc with score := ns } else sc),
              winnerId := jsWinner (findZeroScore (r.scores.map (fun sc =>
                if sc.playerId = pid then { sc with score := ns } else sc))) }
          else r) }

/-! ### Claim C4 (amended): deleteRound renumbers and recomputes, but
never clears the game-over flag -/

theorem renumberFrom_map_id (l : List Round) :
    ∀ n : Nat, (renumberFrom n l).map (·.id) = List.range' n l.length := by
  induction l with
  | nil => intro n; rfl
  | cons r rest ih =>
    intro n
    simp only [renumberFrom, List.map_cons, List.length_cons, List.range'_succ]
    exact congrArg _ (ih (n + 1))

theorem renumberFrom_map_scores (l : List Round) :
    ∀ n : Nat, (renumberFrom n l).map (·.scores) = l.map (·.scores) := by
  induction l with
  | nil => intro n; rfl
  | cons r rest ih =>
    intro n
    simp only [renumberFrom, List.map_cons]
    exact congrArg _ (ih (n + 1))

theorem recalculatePlayerStatuses_rounds (s : GameState) :
    (recalculatePlayerStatuses s).rounds = s.rounds := by
  simp only [recalculatePlayerStatuses]
  split
  · exact checkGameOver_rounds _
  · rfl

theorem recalculatePlayerStatuses_isGameOver_mono (s : GameState)
    (h : s.isGameOver = true) :
    (recalculatePlayerStatuses s).isGameOver = true := by
  simp only [recalculatePlayerStatuses]
  split
  · exact checkGameOver_isGameOver_mono _ h
  · exact h

/-- After `assignOrders`, ids and `isOut` flags are unchanged position by
position. -/
theorem assignOrders_forall2 (l : List Player) :
    ∀ n : Nat, List.Forall₂ (fun p q => p.id = q.id ∧ q.isOut = p.isOut) l
      (assignOrders n l) := by
  induction l with
  | nil => intro n; simp [assignOrders]
  | cons p rest ih =>
    intro n
    simp only [assignOrders]
    split
    · exact List.Forall₂.cons ⟨rfl, rfl⟩ (ih n)
    · exact List.Forall₂.cons ⟨rfl, rfl⟩ (ih (n + 1))

/-- The compaction loop hands the active players the orders `n, n+1, …`
in stored order. -/
theorem assignOrders_activeOrders (l : List Player) :
    ∀ n : Nat, ((assignOrders n l).filter (fun p => !p.isOut)).map (·.columnOrder) =
      List.range' n (l.filter (fun p => !p.isOut)).length := by
  induction l with
  | nil => intro n; rfl
  | cons p rest ih =>
    intro n
    cases hout : p.isOut with
    | true => simpa [assignOrders, hout] using ih n
    | false => simp [assignOrders, hout, List.range'_succ, ih (n + 1)]

/-- Core of the recomputation pass: mapping the flag update and then
compacting orders preserves ids and sets `isOut` to the recomputed
comparison, position by position. -/
theorem recalc_core_forall2 (s : GameState) (l : List Player) :
    ∀ n : Nat, List.Forall₂ (fun p q => p.id = q.id ∧
        q.isOut = decide (calculatePlayerTotal s p.id > s.settings.maxPoints)) l
      (assignOrders n (l.map (fun p =>
        if p.isOut ≠ decide (calculatePlayerTotal s p.id > s.settings.maxPoints) then
          { p with isOut := decide (calculatePlayerTotal s p.id > s.settings.maxPoints) }
        else p))) := by
  induction l with
  | nil => intro n; simp [assignOrders]
  | cons p rest ih =>
    intro n
    simp only [List.map_cons]
    split
    · simp only [assignOrders]
      split
      · exact List.Forall₂.cons ⟨rfl, rfl⟩ (ih n)
      · exact List.Forall₂.cons ⟨rfl, rfl⟩ (ih (n + 1))
    · rename_i hch
      have hpd : p.isOut = decide (calculatePlayerTotal s p.id > s.settings.maxPoints) :=
        not_ne_iff.mp hch
      simp only [assignOrders]
      split
      · exact List.Forall₂.cons ⟨rfl, hpd⟩ (ih n)
      · exact List.Forall₂.cons ⟨rfl, hpd⟩ (ih (n + 1))

/-- The recomputation pass sets every player's flag to
`total > maxPoints`, preserving ids and positions. -/
theorem recalculatePlayerStatuses_forall2 (s : GameState) :
    List.Forall₂ (fun p q => p.id = q.id ∧
        q.isOut = decide (calculatePlayerTotal s p.id > s.settings.maxPoints))
      s.players (recalculatePlayerStatuses s).players := by
  simp only [recalculatePlayerStatuses]
  split
  · rw [checkGameOver_players]
    exact recalc_core_forall2 s s.players 0
  · rename_i h
    rw [Bool.not_eq_true, List.any_eq_false] at h
    refine (List.forall₂_same).2 (fun p hp => ⟨rfl, ?_⟩)
    have hh := h p hp
    simpa using hh

theorem activeOrders_checkGameOver (s : GameState) :
    activeOrders (checkGameOver s) = activeOrders s := by
  unfold activeOrders
  rw [checkGameOver_players]

/-- The recomputation pass either leaves the players untouched or leaves
the active players' `columnOrder` values exactly `0, 1, …`. -/
theorem recalculatePlayerStatuses_dense_or_id (s : GameState) :
    (recalculatePlayerStatuses s).players = s.players ∨
      activeOrders (recalculatePlayerStatuses s) =
        List.range (activeOrders (recalculatePlayerStatuses s)).length := by
  simp only [recalculatePlayerStatuses]
  split
  · right
    show activeOrders (checkGameOver _) = _
    rw [activeOrders_checkGameOver]
    unfold activeOrders
    show ((assignOrders 0 _).filter _).map _ = _
    rw [assignOrders_activeOrders]
    simp [List.range_eq_range']
  · left
    rfl

/-- Claim C4 amended: `deleteRound` removes the round, renumbers the
remaining rounds to a contiguous `1..N` sequence preserving relative
order and content, and re-evaluates every player's `isOut` flag against
the recomputed total — so a player who was over the ceiling only because
of the deleted round becomes active again and (whenever any flag
changed) the active players are re-seated at contiguous orders `0..K-1`.
It does **not** clear `isGameOver`: the game-over check only ever sets
the flag, so a prior game-over state persists even when two or more
players become active again. -/
theorem claim4_deleteRound_renumbers_and_recomputes (st : ServiceState) (rid : Nat) :
    (deleteRound st rid).game.rounds.map (·.id) =
      List.range' 1 (st.game.rounds.filter (fun r => r.id ≠ rid)).length ∧
    (deleteRound st rid).game.rounds.map (·.scores) =
      (st.game.rounds.filter (fun r => r.id ≠ rid)).map (·.scores) ∧
    List.Forall₂ (fun p q => p.id = q.id ∧
        q.isOut = decide
          (totalOnRounds (renumberFrom 1 (st.game.rounds.filter (fun r => r.id ≠ rid)))
              p.id > st.game.settings.maxPoints))
      st.game.players (deleteRound st rid).game.players ∧
    ((deleteRound st rid).game.players = st.game.players ∨
      activeOrders (deleteRound st rid).game =
        List.range (activeOrders (deleteRound st rid).game).length) ∧
    (st.game.isGameOver = true → (deleteRound st rid).game.isGameOver = true) := by
  refine ⟨?_, ?_, ?_, ?_, ?_⟩
  · show (recalculatePlayerStatuses _).rounds.map _ = _
    rw [recalculatePlayerStatuses_rounds]
    exact renumberFrom_map_id _ 1
  · show (recalculatePlayerStatuses _).rounds.map _ = _
    rw [recalculatePlayerStatuses_rounds]
    exact renumberFrom_map_scores _ 1
  · exact recalculatePlayerStatuses_forall2
      { st.game with rounds := renumberFrom 1 (st.game.rounds.filter (fun r => r.id ≠ rid)) }
  · exact recalculatePlayerStatuses_dense_or_id
      { st.game with rounds := renumberFrom 1 (st.game.rounds.filter (fun r => r.id ≠ rid)) }
  · intro h
    exact recalculatePlayerStatuses_isGameOver_mono
      { st.game with rounds := renumberFrom 1 (st.game.rounds.filter (fun r => r.id ≠ rid)) } h

/-- Witness for the amended claim C4, at a concrete game-over state. -/
theorem claim4_witness_gameOver_persists :
    exStOver.game.isGameOver = true ∧ (deleteRound exStOver 1).game.isGameOver = true :=
  ⟨rfl, (claim4_deleteRound_renumbers_and_recomputes exStOver 1).2.2.2.2 rfl⟩

/-! ### Claim C6 (amended): dealer derivation, in-range and stale cases -/

/-- Claim C6 amended: when at least two players are active **and** the
rotation index is within range of the active list, the open-card player
is the active player at the index and the dealer is the active player
immediately preceding it, wrapping from index 0 to the last index (and
it always exists); with fewer than two active players the dealer is
`none`.  When the index is out of range, however, the open-card player
falls back to the first active player while the dealer is `none`. -/
theorem claim6_dealer_precedes_openCard (g : GameState) :
    ((activePlayers g).length < 2 → currentDealer g = none) ∧
    (2 ≤ (activePlayers g).length →
      g.currentOpenCardPlayerIndex < (activePlayers g).length →
      currentOpenCardPlayer g = (activePlayers g).get? g.currentOpenCardPlayerIndex ∧
      currentDealer g = (activePlayers g).get?
        (if g.currentOpenCardPlayerIndex = 0 then (activePlayers g).length - 1
         else g.currentOpenCardPlayerIndex - 1) ∧
      (currentDealer g).isSome = true) ∧
    (2 ≤ (activePlayers g).length →
      (activePlayers g).length ≤ g.currentOpenCardPlayerIndex →
      currentDealer g = none ∧
      currentOpenCardPlayer g = (activePlayers g).get? 0) := by
  refine ⟨?_, ?_, ?_⟩
  · intro h
    simp only [currentDealer]
    rw [if_pos h]
  · intro h2 hi
    have hlen0 : ¬ (activePlayers g).length = 0 := by omega
    have hnot2 : ¬ (activePlayers g).length < 2 := by omega
    have hidx : (if g.currentOpenCardPlayerIndex = 0 then (activePlayers g).length - 1
        else g.currentOpenCardPlayerIndex - 1) < (activePlayers g).length := by
      split <;> omega
    refine ⟨?_, ?_, ?_⟩
    · simp only [currentOpenCardPlayer]
      rw [if_neg hlen0, List.get?_eq_get hi]
    · simp only [currentDealer]
      rw [if_neg hnot2, List.get?_eq_get hi]
    · simp only [currentDealer]
      rw [if_neg hnot2, List.get?_eq_get hi]
      simp only [List.get?_eq_get hidx, Option.isSome_some]
  · intro h2 hstale
    have hlen0 : ¬ (activePlayers g).length = 0 := by omega
    have hnot2 : ¬ (activePlayers g).length < 2 := by omega
    have hnone : (activePlayers g).get? g.currentOpenCardPlayerIndex = none :=
      List.get?_eq_none.mpr hstale
    constructor
    · simp only [currentDealer]
      rw [if_neg hnot2, hnone]
    · simp only [currentOpenCardPlayer]
      rw [if_neg hlen0, hnone]

/-- Witness for the amended claim C6: the specification's own example —
four active seats A,B,C,D with the rotation index at C — gives dealer B;
advancing once moves the open card to D and the dealer to C. -/
theorem claim6_witness_seating_example :
    2 ≤ (activePlayers exGDealer).length ∧
    exGDealer.currentOpenCardPlayerIndex < (activePlayers exGDealer).length ∧
    currentDealer exGDealer = (activePlayers exGDealer).get?
      (if exGDealer.currentOpenCardPlayerIndex = 0 then (activePlayers exGDealer).length - 1
       else exGDealer.currentOpenCardPlayerIndex - 1) ∧
    (currentDealer exGDealer).map (·.name) = some "B" ∧
    (currentOpenCardPlayer exGDealer).map (·.name) = some "C" ∧
    (currentDealer (advanceOpenCard exGDealer)).map (·.name) = some "C" ∧
    (currentOpenCardPlayer (advanceOpenCard exGDealer)).map (·.name) = some "D" :=
  ⟨by decide, by decide,
   ((claim6_dealer_precedes_openCard exGDealer).2.1 (by decide) (by decide)).2.1,
   by decide, by decide, by decide, by decide⟩

/-! ### Claim C7: the rejoin-eligibility window -/

/-- The accumulated went-out list of `checkPlayersOut` is exactly the
ids of the previously active players whose recomputed total exceeds the
ceiling, in stored order. -/
theorem checkPlayersOutAux_snd (s : GameState) (l : List Player) :
    (checkPlayersOutAux s l).2 =
      (l.filter (fun p =>
        !p.isOut && decide (calculatePlayerTotal s p.id > s.settings.maxPoints))).map
        (·.id) := by
  induction l with
  | nil => rfl
  | cons p rest ih =>
    simp only [checkPlayersOutAux]
    split
    · rename_i hout
      simp [List.filter_cons, hout, ih]
    · split
      · rename_i hout hgt
        have hf : p.isOut = false := by
          revert hout
          cases p.isOut <;> simp
        simp [List.filter_cons, hf, hgt, ih]
      · rename_i hout hgt
        have hf : p.isOut = false := by
          revert hout
          cases p.isOut <;> simp
        simp [List.filter_cons, hf, hgt, ih]

theorem checkPlayersOut_snd (s : GameState) :
    (checkPlayersOut s).2 =
      (s.players.filter (fun p =>
        !p.isOut && decide (calculatePlayerTotal s p.id > s.settings.maxPoints))).map
        (·.id) := by
  have h : (checkPlayersOut s).2 = (checkPlayersOutAux s s.players).2 := by
    simp only [checkPlayersOut]
    split <;> rfl
  rw [h, checkPlayersOutAux_snd]

theorem ite_isEmpty_self {α : Type} (l : List α) :
    (if l.isEmpty then ([] : List α) else l) = l := by
  cases l <;> simp

/-- Claim C7: the rejoin-eligible set after a round submission consists
of exactly the players that this submission eliminated: those active
before the commit whose previous total plus this round's entry exceeds
the ceiling.  In particular the set is cleared of all earlier members,
so `canRejoin` (which requires membership) holds only in the window
between the eliminating round and the next commit. -/
theorem claim7_eligibility_window (st : ServiceState) (scores : List RoundScore)
    (t : Nat) :
    (addRound st scores t).eligible =
      (st.game.players.filter (fun p =>
        !p.isOut && decide (totalOnRounds st.game.rounds p.id + scoreOfScores p.id scores >
          st.game.settings.maxPoints))).map (·.id) := by
  have h1 : (addRound st scores t).eligible =
      (checkPlayersOut { st.game with rounds := st.game.rounds ++
        [{ id := st.game.rounds.length + 1, scores := scores,
           winnerId := jsWinner (findZeroScore scores), timestamp := t }] }).2 := by
    simp only [addRound]
    exact ite_isEmpty_self _
  rw [h1, checkPlayersOut_snd]
  have hpred : ∀ p ∈ st.game.players,
      (!p.isOut && decide (calculatePlayerTotal { st.game with rounds := st.game.rounds ++
        [{ id := st.game.rounds.length + 1, scores := scores,
           winnerId := jsWinner (findZeroScore scores), timestamp := t }] } p.id >
        st.game.settings.maxPoints)) =
      (!p.isOut && decide (totalOnRounds st.game.rounds p.id + scoreOfScores p.id scores >
        st.game.settings.maxPoints)) := by
    intro p _
    have harg : calculatePlayerTotal { st.game with rounds := st.game.rounds ++
        [{ id := st.game.rounds.length + 1, scores := scores,
           winnerId := jsWinner (findZeroScore scores), timestamp := t }] } p.id =
        totalOnRounds st.game.rounds p.id + scoreOfScores p.id scores := by
      show totalOnRounds (st.game.rounds ++ [_]) p.id = _
      rw [totalOnRounds_concat]
      rfl
    rw [harg]
  rw [List.filter_congr hpred]

/-! ### Claim C8 (amended): density after a complete reorder -/

theorem indexOfId_isSome (a : String) (l : List String) (h : a ∈ l) :
    (indexOfId a l).isSome := by
  induction l with
  | nil => cases h
  | cons x xs ih =>
    simp only [indexOfId]
    by_cases hx : x = a
    · rw [if_pos hx]; rfl
    · rw [if_neg hx]
      have hmem : a ∈ xs := by
        cases h with
        | head => exact absurd rfl hx
        | tail _ hh => exact hh
      rcases Option.isSome_iff_exists.mp (ih hmem) with ⟨k, hk⟩
      rw [hk]
      rfl

theorem map_indexOfId_getD_self (ids : List String) (hnd : ids.Nodup) :
    ids.map (fun a => (indexOfId a ids).getD 0) = List.range ids.length := by
  induction ids with
  | nil => rfl
  | cons x xs ih =>
    rcases List.nodup_cons.mp hnd with ⟨hx, hxs⟩
    simp only [List.map_cons, List.length_cons]
    have hhead : (indexOfId x (x :: xs)).getD 0 = 0 := by simp [indexOfId]
    have htail : xs.map (fun a => (indexOfId a (x :: xs)).getD 0) =
        xs.map (fun a => (indexOfId a xs).getD 0 + 1) := by
      apply List.map_congr_left
      intro a ha
      have hne : ¬ x = a := fun he => hx (he ▸ ha)
      rcases Option.isSome_iff_exists.mp (indexOfId_isSome a xs ha) with ⟨k, hk⟩
      simp only [indexOfId, if_neg hne, hk]
      rfl
    rw [hhead, htail]
    have hmm : xs.map (fun a => (indexOfId a xs).getD 0 + 1) =
        (xs.map (fun a => (indexOfId a xs).getD 0)).map (· + 1) := by
      rw [List.map_map]
      rfl
    rw [hmm, ih hxs, List.range_succ_eq_map]

theorem filter_isOut_map_comm (f : Player → Player)
    (hf : ∀ p, (f p).isOut = p.isOut) (l : List Player) :
    (l.map f).filter (fun p => !p.isOut) = (l.filter (fun p => !p.isOut)).map f := by
  induction l with
  | nil => rfl
  | cons p rest ih =>
    simp only [List.map_cons, List.filter_cons, hf]
    cases hpo : p.isOut
    · simp [ih]
    · simp [ih]

/-- Claim C8 amended: the contiguous 0-based permutation invariant is
not maintained in every reachable state (see the counterexample: an
elimination leaves a gap, and a partial reorder list breaks density),
but it is (re-)established by every `reorderPlayers` call whose argument
is a duplicate-free enumeration of exactly the active players' ids. -/
theorem claim8_reorder_complete_is_dense (st : ServiceState) (ids : List String)
    (hperm : List.Perm (activeIds st.game) ids) (hnd : ids.Nodup) :
    denseActiveOrders (reorderPlayers st ids).game := by
  have hf : ∀ p : Player,
      ((fun (p : Player) => match indexOfId p.id ids with
        | some n => { p with columnOrder := n }
        | none => p) p).isOut = p.isOut := by
    intro p
    show (match indexOfId p.id ids with
      | some n => { p with columnOrder := n }
      | none => p).isOut = p.isOut
    cases indexOfId p.id ids <;> rfl
  have hcomm := filter_isOut_map_comm (fun (p : Player) =>
      match indexOfId p.id ids with
      | some n => { p with columnOrder := n }
      | none => p) hf st.game.players
  have h2 : ((st.game.players.filter (fun p => !p.isOut)).map (fun (p : Player) =>
        match indexOfId p.id ids with
        | some n => { p with columnOrder := n }
        | none => p)).map (fun (q : Player) => q.columnOrder) =
      (activeIds st.game).map (fun a => (indexOfId a ids).getD 0) := by
    unfold activeIds
    rw [List.map_map, List.map_map]
    apply List.map_congr_left
    intro p hp
    have hid : p.id ∈ ids :=
      hperm.mem_iff.mp (List.mem_map_of_mem (·.id) hp)
    rcases Option.isSome_iff_exists.mp (indexOfId_isSome p.id ids hid) with ⟨k, hk⟩
    show (match indexOfId p.id ids with
      | some n => { p with columnOrder := n }
      | none => p).columnOrder = (indexOfId p.id ids).getD 0
    rw [hk]
    rfl
  have hAO : activeOrders (reorderPlayers st ids).game =
      (activeIds st.game).map (fun a => (indexOfId a ids).getD 0) :=
    (congrArg (List.map (fun (q : Player) => q.columnOrder)) hcomm).trans h2
  have hlen : (activeOrders (reorderPlayers st ids).game).length = ids.length := by
    rw [hAO, List.length_map]
    exact hperm.length_eq
  have h4 : ids.map (fun a => (indexOfId a ids).getD 0) = List.range ids.length :=
    map_indexOfId_getD_self ids hnd
  unfold denseActiveOrders
  rw [hlen, hAO]
  exact h4 ▸ hperm.map (fun a => (indexOfId a ids).getD 0)

/-- Witness for the amended claim C8: reordering the three active
players of `exSt0` to C, A, B re-seats them densely at orders 0,1,2. -/
theorem claim8_witness_reorder_dense :
    List.Perm (activeIds exSt0.game) ["c", "a", "b"] ∧
    (["c", "a", "b"] : List String).Nodup ∧
    denseActiveOrders (reorderPlayers exSt0 ["c", "a", "b"]).game :=
  ⟨by decide, by decide,
   claim8_reorder_complete_is_dense exSt0 ["c", "a", "b"] (by decide) (by decide)⟩

/-! ### Claim C5: rejoin adjusts only the last round to land exactly on
highestActiveTotal + 1 -/

theorem mapLast_concat (f : Round → Round) (xs : List Round) (r : Round) :
    mapLast f (xs ++ [r]) = xs ++ [f r] := by
  induction xs with
  | nil => rfl
  | cons x xs ih =>
    cases xs with
    | nil => rfl
    | cons y ys => exact congrArg (x :: ·) ih

theorem findScore_map_edit (pid : String) (v : Int) (l : List RoundScore) :
    findScore pid (l.map (fun sc =>
        if sc.playerId = pid then { sc with score := v } else sc)) =
      (findScore pid l).map (fun sc => { sc with score := v }) := by
  induction l with
  | nil => rfl
  | cons sc rest ih =>
    by_cases h : sc.playerId = pid
    · simp [findScore, h]
    · simp [findScore, h, ih]

theorem forall2_edit_last (pid : String) (v : Int) (l : List RoundScore) :
    List.Forall₂ (fun sc sc' => sc'.playerId = sc.playerId ∧
        (sc.playerId ≠ pid → sc' = sc)) l
      (l.map (fun sc => if sc.playerId = pid then { sc with score := v } else sc)) := by
  induction l with
  | nil => simp
  | cons sc rest ih =>
    simp only [List.map_cons]
    split
    · exact List.Forall₂.cons ⟨rfl, fun hne => absurd (by assumption) hne⟩ ih
    · exact List.Forall₂.cons ⟨rfl, fun _ => rfl⟩ ih

/-- The guarded core of `rejoinPlayer`: once the guard passes, the round
ledger becomes `mapLast` of the score adjustment. -/
theorem rejoinPlayer_game_rounds (st : ServiceState) (pid : String) (p : Player)
    (hfind : findPlayer pid st.game.players = some p)
    (hout : p.isOut = true) (helig : pid ∈ st.eligible) :
    (rejoinPlayer st pid).game.rounds = mapLast (fun r =>
      { r with scores := r.scores.map (fun sc =>
          if sc.playerId = pid then
            { sc with score := getHighestActiveScore st.game none + 1 -
                calculatePlayerTotal st.game pid +
                (match st.game.rounds.getLast? with
                 | some lr => scoreOf pid lr
                 | none => 0) }
          else sc) }) st.game.rounds := by
  unfold rejoinPlayer
  simp only [hfind]
  rw [if_pos ⟨hout, helig⟩]

/-- Claim C5: for an eliminated player in the rejoin-eligible set (with a
last round containing an entry for them — always the case for a player
eliminated by that round), `rejoinPlayer` adjusts only their entry in the
most recent round so that the recomputed total is exactly
`highestActiveTotal + 1`, regardless of the prior total: no new round is
created, all earlier rounds are untouched, and in the last round the
other players' entries are unchanged. -/
theorem claim5_rejoin_total_exact (st : ServiceState) (pid : String) (p : Player)
    (lr : Round)
    (hfind : findPlayer pid st.game.players = some p)
    (hout : p.isOut = true) (helig : pid ∈ st.eligible)
    (hlr : st.game.rounds.getLast? = some lr)
    (hsc : (findScore pid lr.scores).isSome) :
    calculatePlayerTotal (rejoinPlayer st pid).game pid =
      getHighestActiveScore st.game none + 1 ∧
    (rejoinPlayer st pid).game.rounds.length = st.game.rounds.length ∧
    (rejoinPlayer st pid).game.rounds.dropLast = st.game.rounds.dropLast ∧
    ∃ lr', (rejoinPlayer st pid).game.rounds.getLast? = some lr' ∧
      List.Forall₂ (fun sc sc' => sc'.playerId = sc.playerId ∧
          (sc.playerId ≠ pid → sc' = sc)) lr.scores lr'.scores := by
  have hne : st.game.rounds ≠ [] := by
    intro h
    rw [h] at hlr
    cases hlr
  have hgl : st.game.rounds.getLast hne = lr := by
    have h := List.getLast?_eq_getLast st.game.rounds hne
    rw [h] at hlr
    exact Option.some.inj hlr
  have hsplit : st.game.rounds = st.game.rounds.dropLast ++ [lr] := by
    have h := List.dropLast_append_getLast hne
    rw [hgl] at h
    exact h.symm
  rcases Option.isSome_iff_exists.mp hsc with ⟨sc0, hsc0⟩
  have hrounds := rejoinPlayer_game_rounds st pid p hfind hout helig
  rw [hlr] at hrounds
  set v : Int := getHighestActiveScore st.game none + 1 -
      calculatePlayerTotal st.game pid + scoreOf pid lr with hv
  have hrounds2 : (rejoinPlayer st pid).game.rounds =
      st.game.rounds.dropLast ++ [{ lr with scores := lr.scores.map (fun sc =>
        if sc.playerId = pid then { sc with score := v } else sc) }] := by
    rw [hrounds]
    conv_lhs => rw [hsplit]
    exact mapLast_concat _ _ lr
  have hscore : scoreOf pid ({ lr with scores := lr.scores.map (fun sc =>
      if sc.playerId = pid then { sc with score := v } else sc) }) = v := by
    unfold scoreOf scoreOfScores
    show (match findScore pid (lr.scores.map _) with
      | some s => s.score
      | none => 0) = v
    rw [findScore_map_edit, hsc0]
    rfl
  have hT : calculatePlayerTotal st.game pid =
      totalOnRounds st.game.rounds.dropLast pid + scoreOf pid lr := by
    show totalOnRounds st.game.rounds pid = _
    calc totalOnRounds st.game.rounds pid
        = totalOnRounds (st.game.rounds.dropLast ++ [lr]) pid := by rw [← hsplit]
      _ = _ := totalOnRounds_concat _ lr pid
  refine ⟨?_, ?_, ?_, ?_⟩
  · show totalOnRounds (rejoinPlayer st pid).game.rounds pid = _
    rw [hrounds2, totalOnRounds_concat, hscore, hv]
    rw [hT]
    ring
  · rw [hrounds2, hsplit]
    simp
  · rw [hrounds2, List.dropLast_concat]
  · refine ⟨{ lr with scores := lr.scores.map (fun sc =>
        if sc.playerId = pid then { sc with score := v } else sc) },
      ?_, forall2_edit_last pid v lr.scores⟩
    rw [hrounds2]
    exact List.getLast?_concat _

/-- Witness for claim C5: in `exSt1`, player `b` is out with 250 points
and eligible; after rejoining, their total is exactly the highest active
total (10) plus one. -/
theorem claim5_witness_rejoin_exact :
    findPlayer "b" exSt1.game.players = some exPlayerBOut ∧
    "b" ∈ exSt1.eligible ∧
    getHighestActiveScore exSt1.game none = 10 ∧
    calculatePlayerTotal (rejoinPlayer exSt1 "b").game "b" =
      getHighestActiveScore exSt1.game none + 1 :=
  ⟨by decide, by decide, by decide,
   (claim5_rejoin_total_exact exSt1 "b" exPlayerBOut
      ⟨1, [⟨"a", 0⟩, ⟨"b", 250⟩, ⟨"c", 10⟩], some "a", 0⟩
      (by decide) rfl (by decide) (by decide) (by decide)).1⟩

/-- Claim C8 counterexample: from a dense seating (orders 0,1,2), a round
that eliminates the middle player leaves the active players at orders
0 and 2 — the contiguous 0-based permutation invariant does not hold in
every reachable state. -/
theorem claim8_cex_elimination_leaves_gap :
    denseActiveOrders exSt0.game ∧
    ¬ denseActiveOrders (addRound exSt0 [⟨"a", 0⟩, ⟨"b", 250⟩, ⟨"c", 10⟩] 0).game := by
  constructor
  · decide
  · decide

/-! ### Lemmas about removal, tombstones and restoration -/

theorem findPlayer_id (pid : String) (l : List Player) (p : Player)
    (h : findPlayer pid l = some p) : p.id = pid := by
  induction l with
  | nil => cases h
  | cons q rest ih =>
    by_cases hq : q.id = pid
    · rw [findPlayer, if_pos hq] at h
      cases h
      exact hq
    · rw [findPlayer, if_neg hq] at h
      exact ih h

theorem findScore_append (pid : String) (l1 l2 : List RoundScore) :
    findScore pid (l1 ++ l2) =
      match findScore pid l1 with
      | some x => some x
      | none => findScore pid l2 := by
  induction l1 with
  | nil => rfl
  | cons sc rest ih =>
    by_cases h : sc.playerId = pid
    · simp [findScore, h]
    · simp [findScore, h, ih]

theorem findScore_filter_ne (pid : String) (l : List RoundScore) :
    findScore pid (l.filter (fun sc => sc.playerId ≠ pid)) = none := by
  induction l with
  | nil => rfl
  | cons sc rest ih =>
    by_cases h : sc.playerId = pid
    · simpa [List.filter_cons, h] using ih
    · simpa [List.filter_cons, h, findScore] using ih

theorem findSaved_eq_none (rid : Nat) (l : List RemovedScore)
    (h : ∀ e ∈ l, e.roundId ≠ rid) : findSaved rid l = none := by
  induction l with
  | nil => rfl
  | cons e rest ih =>
    rw [findSaved, if_neg (h e (List.mem_cons_self e rest))]
    exact ih (fun x hx => h x (List.mem_cons_of_mem e hx))

theorem collectScores_roundIds (pid : String) (rounds : List Round) :
    ∀ e ∈ collectScores pid rounds, e.roundId ∈ rounds.map (·.id) := by
  induction rounds with
  | nil => intro e he; cases he
  | cons r rest ih =>
    intro e he
    rw [collectScores] at he
    cases hf : findScore pid r.scores with
    | some sc =>
      rw [hf] at he
      cases he with
      | head => exact List.mem_cons_self _ _
      | tail _ hh => exact List.mem_cons_of_mem _ (ih e hh)
    | none =>
      rw [hf] at he
      exact List.mem_cons_of_mem _ (ih e he)

/-- On a ledger with distinct round ids, the tombstone score list acts
as an association list keyed by round id. -/
theorem findSaved_collect (pid : String) (rounds : List Round)
    (hnd : (rounds.map (·.id)).Nodup) (r : Round) (hr : r ∈ rounds) :
    findSaved r.id (collectScores pid rounds) =
      (findScore pid r.scores).map (fun sc => { roundId := r.id, score := sc.score }) := by
  induction rounds with
  | nil => cases hr
  | cons r0 rest ih =>
    rcases List.nodup_cons.mp hnd with ⟨h0, hrest⟩
    cases hr with
    | head =>
      cases hf : findScore pid r.scores with
      | some sc => simp [collectScores, hf, findSaved]
      | none =>
        simp only [collectScores, hf, Option.map_none']
        refine findSaved_eq_none _ _ ?_
        intro e he heq
        have hmem := collectScores_roundIds pid rest e he
        rw [heq] at hmem
        exact h0 hmem
    | tail _ hmem =>
      have hne : r.id ≠ r0.id := by
        intro heq
        have hm : r.id ∈ List.map (fun x => x.id) rest :=
          List.mem_map_of_mem (·.id) hmem
        rw [heq] at hm
        exact h0 hm
      cases hf : findScore pid r0.scores with
      | some sc =>
        simp only [collectScores, hf]
        rw [findSaved, if_neg (Ne.symm hne)]
        exact ih hrest hmem
      | none =>
        simp only [collectScores, hf]
        exact ih hrest hmem

theorem assignOrders_map_idname (l : List Player) :
    ∀ n : Nat, (assignOrders n l).map (fun p => (p.id, p.name)) =
      l.map (fun p => (p.id, p.name)) := by
  induction l with
  | nil => intro n; rfl
  | cons p rest ih =>
    intro n
    simp only [assignOrders]
    split
    · simp only [List.map_cons, ih n]
    · simp only [List.map_cons, ih (n + 1)]

theorem checkGameOver_removedPlayers (s : GameState) :
    (checkGameOver s).removedPlayers = s.removedPlayers := by
  unfold checkGameOver
  cases activePlayers s with
  | nil => rfl
  | cons p ps => cases ps with
    | nil => rfl
    | cons q qs => rfl

/-- The guarded core of `removePlayer`: the whole transition, written
out. -/
theorem removePlayer_eq (st : ServiceState) (pid : String) (p : Player)
    (hfind : findPlayer pid st.game.players = some p) :
    removePlayer st pid =
      { game := checkGameOver
          { st.game with
            players := assignOrders 0 (st.game.players.filter (fun pl => pl.id ≠ pid)),
            rounds := st.game.rounds.map (fun r =>
              { r with scores := r.scores.filter (fun sc => sc.playerId ≠ pid) }),
            removedPlayers :=
              (st.game.removedPlayers.filter (fun rp =>
                jsToLower rp.player.name ≠ jsToLower p.name)) ++
                [{ player := p, scores := collectScores pid st.game.rounds }] },
        eligible := st.eligible.filter (fun x => x ≠ pid) } := by
  unfold removePlayer
  simp only [hfind]

/-- The guarded core of `addPlayer` in the restoring branch. -/
theorem addPlayer_restores (st : ServiceState) (freshId name : String)
    (rp : RemovedPlayer)
    (htaken : isPlayerNameTaken st.game (jsTrim name) = false)
    (hfound : findRemovedPlayer st.game (jsTrim name) = some rp) :
    addPlayer st freshId name =
      (true, { st with game := { st.game with
        players := st.game.players ++
          [{ rp.player with
               isOut := false,
               columnOrder := (st.game.players.filter (fun p => !p.isOut)).length }],
        rounds := st.game.rounds.map (fun r =>
          match findSaved r.id rp.scores with
          | some saved =>
            { r with scores := r.scores ++ [{ playerId := rp.player.id, score := saved.score }] }
          | none => r),
        removedPlayers := st.game.removedPlayers.filter (fun q =>
          jsToLower q.player.name ≠ jsToLower (jsTrim name)) } }) := by
  unfold addPlayer
  simp only [htaken, hfound]
  rfl

theorem scoreOfScores_eq_getD (pid : String) (l : List RoundScore) :
    scoreOfScores pid l = ((findScore pid l).map (·.score)).getD 0 := by
  unfold scoreOfScores
  cases findScore pid l <;> rfl

/-! ### Claim C9: remove then case-insensitive re-add restores history -/

/-- Claim C9: removing a player and re-adding them under the same name
compared case-insensitively (after trimming) restores them — same id,
name and prior `rejoinCount`, active again — restores their per-round
score history across all existing rounds (so their total is unchanged),
and consumes the tombstone.  The hypotheses ask that the player exists,
the re-add name matches theirs case-insensitively, no *other* player
holds that name, and round ids are distinct (the `1..N` ledger
invariant). -/
theorem claim9_remove_readd_restores (st : ServiceState) (pid : String) (p : Player)
    (freshId name2 : String)
    (hfind : findPlayer pid st.game.players = some p)
    (htr : jsTrim name2 = name2)
    (hname : jsToLower name2 = jsToLower p.name)
    (hno : ∀ q ∈ st.game.players, q.id ≠ pid → ¬ jsToLower q.name = jsToLower p.name)
    (hrids : (st.game.rounds.map (·.id)).Nodup) :
    (addPlayer (removePlayer st pid) freshId name2).1 = true ∧
    (∃ q, (addPlayer (removePlayer st pid) freshId name2).2.game.players.getLast? =
        some q ∧
      q.id = p.id ∧ q.name = p.name ∧ q.rejoinCount = p.rejoinCount ∧ q.isOut = false) ∧
    List.Forall₂ (fun r1 r3 =>
        (findScore pid r3.scores).map (·.score) = (findScore pid r1.scores).map (·.score))
      st.game.rounds (addPlayer (removePlayer st pid) freshId name2).2.game.rounds ∧
    calculatePlayerTotal (addPlayer (removePlayer st pid) freshId name2).2.game pid =
      calculatePlayerTotal st.game pid ∧
    findRemovedPlayer (addPlayer (removePlayer st pid) freshId name2).2.game
      name2 = none := by
  have hpid : p.id = pid := findPlayer_id pid _ p hfind
  have hst2 := removePlayer_eq st pid p hfind
  have hpl2 : (removePlayer st pid).game.players =
      assignOrders 0 (st.game.players.filter (fun pl => pl.id ≠ pid)) := by
    rw [hst2]
    exact checkGameOver_players _
  have hrd2 : (removePlayer st pid).game.rounds =
      st.game.rounds.map (fun r =>
        { r with scores := r.scores.filter (fun sc => sc.playerId ≠ pid) }) := by
    rw [hst2]
    exact checkGameOver_rounds _
  have hrm2 : (removePlayer st pid).game.removedPlayers =
      (st.game.removedPlayers.filter (fun rp =>
        jsToLower rp.player.name ≠ jsToLower p.name)) ++
        [{ player := p, scores := collectScores pid st.game.rounds }] := by
    rw [hst2]
    exact checkGameOver_removedPlayers _
  have hanykey : ∀ (l : List Player) (key : String) (n : Nat),
      (assignOrders n l).any (fun q => jsToLower q.name = key) =
        l.any (fun q => jsToLower q.name = key) := by
    intro l key
    induction l with
    | nil => intro n; rfl
    | cons q rest ih =>
      intro n
      simp only [assignOrders]
      split
      · simp [List.any_cons, ih n]
      · simp [List.any_cons, ih (n + 1)]
  have htaken2 : isPlayerNameTaken (removePlayer st pid).game (jsTrim name2) = false := by
    simp only [isPlayerNameTaken]
    rw [htr, htr, hname, hpl2, hanykey]
    rw [List.any_eq_false]
    intro q hq
    rcases List.mem_filter.mp hq with ⟨hqmem, hqid⟩
    have hne : q.id ≠ pid := by simpa using hqid
    simpa using hno q hqmem hne
  have hfound2 : findRemovedPlayer (removePlayer st pid).game (jsTrim name2) =
      some { player := p, scores := collectScores pid st.game.rounds } := by
    simp only [findRemovedPlayer]
    rw [htr, htr, hname, hrm2, List.find?_append]
    have hnone : (st.game.removedPlayers.filter (fun rp =>
        jsToLower rp.player.name ≠ jsToLower p.name)).find?
          (fun rp => jsToLower rp.player.name = jsToLower p.name) = none := by
      rw [List.find?_eq_none]
      intro x hx
      rcases List.mem_filter.mp hx with ⟨_, hxname⟩
      simpa using hxname
    rw [hnone]
    simp [List.find?]
  have hall := addPlayer_restores (removePlayer st pid) freshId name2
    ({ player := p, scores := collectScores pid st.game.rounds } : RemovedPlayer)
    htaken2 hfound2
  have hper : ∀ r ∈ st.game.rounds,
      (findScore pid ((fun r' : Round =>
        match findSaved r'.id (collectScores pid st.game.rounds) with
        | some saved =>
          { r' with scores := r'.scores ++
              [({ playerId := p.id, score := saved.score } : RoundScore)] }
        | none => r')
          { r with scores := r.scores.filter (fun sc => sc.playerId ≠ pid) }).scores).map
        (·.score) =
      (findScore pid r.scores).map (·.score) := by
    intro r hr
    have hsaved := findSaved_collect pid st.game.rounds hrids r hr
    cases hfsc : findScore pid r.scores with
    | some sc =>
      rw [hfsc] at hsaved
      simp only [hsaved, Option.map_some']
      rw [findScore_append]
      rw [findScore_filter_ne]
      simp [findScore, hpid]
    | none =>
      rw [hfsc] at hsaved
      simp only [hsaved, Option.map_none']
      rw [findScore_filter_ne]
      rfl
  have hrounds3 : (addPlayer (removePlayer st pid) freshId name2).2.game.rounds =
      st.game.rounds.map (fun r =>
        (fun r' : Round =>
          match findSaved r'.id (collectScores pid st.game.rounds) with
          | some saved =>
            { r' with scores := r'.scores ++
                [({ playerId := p.id, score := saved.score } : RoundScore)] }
          | none => r')
          { r with scores := r.scores.filter (fun sc => sc.playerId ≠ pid) }) := by
    rw [hall]
    show (removePlayer st pid).game.rounds.map _ = _
    rw [hrd2, List.map_map]
    rfl
  refine ⟨?_, ?_, ?_, ?_, ?_⟩
  · rw [hall]
  · refine ⟨{ p with
        isOut := false,
        columnOrder :=
          ((removePlayer st pid).game.players.filter (fun q => !q.isOut)).length },
      ?_, rfl, rfl, rfl, rfl⟩
    rw [hall]
    show ((removePlayer st pid).game.players ++ [_]).getLast? = _
    exact List.getLast?_concat _
  · rw [hrounds3]
    exact List.forall₂_map_right_iff.mpr ((List.forall₂_same).mpr hper)
  · show totalOnRounds _ pid = totalOnRounds _ pid
    rw [hrounds3, totalOnRounds_eq_sum, totalOnRounds_eq_sum, List.map_map]
    refine congrArg _ (List.map_congr_left ?_)
    intro r hr
    show scoreOf pid _ = scoreOf pid r
    unfold scoreOf
    rw [scoreOfScores_eq_getD, scoreOfScores_eq_getD, hper r hr]
  · rw [hall]
    show ((removePlayer st pid).game.removedPlayers.filter _).find? _ = none
    rw [List.find?_eq_none]
    intro x hx
    rcases List.mem_filter.mp hx with ⟨_, hxname⟩
    simpa using hxname

/-- Witness for claim C9: removing `Bee` (rejoin count 3, scores 25 and 7)
and re-adding "bee" restores the same total of 32 and consumes the
tombstone. -/
theorem claim9_witness_remove_readd :
    findPlayer "b" exStRemove.game.players = some (mkPlayer "b" "Bee" 1 false none 3) ∧
    jsToLower "bee" = jsToLower (mkPlayer "b" "Bee" 1 false none 3).name ∧
    calculatePlayerTotal (addPlayer (removePlayer exStRemove "b") "zz" "bee").2.game "b" =
      calculatePlayerTotal exStRemove.game "b" ∧
    calculatePlayerTotal exStRemove.game "b" = 32 ∧
    findRemovedPlayer (addPlayer (removePlayer exStRemove "b") "zz" "bee").2.game
      "bee" = none :=
  ⟨by decide, by decide,
   (claim9_remove_readd_restores exStRemove "b" (mkPlayer "b" "Bee" 1 false none 3)
      "zz" "bee" (by decide) (by decide) (by decide) (by decide) (by decide)).2.2.2.1,
   by decide,
   (claim9_remove_readd_restores exStRemove "b" (mkPlayer "b" "Bee" 1 false none 3)
      "zz" "bee" (by decide) (by decide) (by decide) (by decide) (by decide)).2.2.2.2⟩

/-! ### Claim C10: re-adding a tombstoned player skips the ceiling -/

/-- Claim C10: whenever the name is free and a tombstone matches,
`addPlayer` restores the player with `isOut` unconditionally `false` and
`columnOrder` equal to the current count of active players — there is no
hypothesis on the restored totals, and no elimination recheck happens:
the rest of the state's players are appended to unchanged. -/
theorem claim10_readd_skips_ceiling (st : ServiceState) (freshId name : String)
    (rp : RemovedPlayer)
    (htaken : isPlayerNameTaken st.game (jsTrim name) = false)
    (hfound : findRemovedPlayer st.game (jsTrim name) = some rp) :
    (addPlayer st freshId name).1 = true ∧
    (addPlayer st freshId name).2.game.players =
      st.game.players ++
        [{ rp.player with
             isOut := false,
             columnOrder := (st.game.players.filter (fun p => !p.isOut)).length }] := by
  constructor
  · simp [addPlayer, htaken, hfound]
  · simp [addPlayer, htaken, hfound]

/-- Witness for claim C10: restoring `Big` (total 500, ceiling 201)
seats them active at order 1 with no elimination recheck. -/
theorem claim10_witness_restores_over_ceiling :
    isPlayerNameTaken exStTomb.game (jsTrim " big ") = false ∧
    findRemovedPlayer exStTomb.game (jsTrim " big ") = some exTombRecord ∧
    (addPlayer exStTomb "zz" " big ").2.game.players =
      exStTomb.game.players ++
        [{ exTombRecord.player with
             isOut := false,
             columnOrder := (exStTomb.game.players.filter (fun p => !p.isOut)).length }] ∧
    calculatePlayerTotal (addPlayer exStTomb "zz" " big ").2.game "g" = 500 ∧
    exStTomb.game.settings.maxPoints = 201 :=
  ⟨by decide, by decide,
   (claim10_readd_skips_ceiling exStTomb "zz" " big " exTombRecord
      (by decide) (by decide)).2,
   by decide, by decide⟩

end RummyScore


